import Mathlib

/-!
Verification of the nematode scavenger-hunt core (toroidal grid, landscape
discretization, partial-observability visibility policy, agent movement).

The definitions below are a shallow embedding of the JavaScript sources
(`nematode.js`, `indexEasy.js`, `indexHard.js`, `index.js`).  JavaScript
numbers that hold matrix indices are modelled as `Int` (the `%` operator on
integers is truncating remainder, i.e. `Int.tmod`); real-valued landscape
arithmetic is modelled over `ℚ`; the transcendental `Math.exp` is kept as an
abstract function parameter.  The d3 library is external to the repository,
so `d3.scale.ordinal().rangeBands` is modelled from its documented behaviour:
the p-th domain element is mapped to `lo + p * (hi - lo) / domainSize`.
-/

namespace Nematode

/-- The wrap computation appearing verbatim in `Environment.prototype.getSquare`,
`Environment.prototype.getMatrixCoordinates` (indexEasy.js) and
`context.getSquare` (nematode.js):
`var ii = i % size; if (ii < 0) { ii = size + ii; }`.
JavaScript `%` on integers is truncating remainder (`Int.tmod`). -/
def wrapIndex (i : Int) (size : Nat) : Int :=
  let ii := Int.tmod i (size : Int)
  if ii < 0 then (size : Int) + ii else ii

/-- A landscape cell, as built by `createLandscape` (indexEasy.js):
matrix coordinates `i, j`, abstract box coordinates `a, b`, real-space
coordinates `x, y` with landscape value `z`, and grid-space coordinates
`m, n`. -/
structure Cell where
  i : Nat
  j : Nat
  a : Nat
  b : Nat
  x : ℚ
  y : ℚ
  z : ℚ
  m : Nat
  n : Nat
deriving DecidableEq, Repr

/-- The landscape object returned by `createLandscape`: dimensions and the
matrix of cells.  (The running `min`/`max` fields are used only by the
colour-scale UI and are not needed by any claim, so they are omitted.) -/
structure Landscape where
  nRows : Nat
  nCols : Nat
  matrix : List (List Cell)
deriving DecidableEq, Repr

/-- Models `d3.scale.ordinal().domain(d3.range(n)).rangeBands([lo, hi])`
from the d3 documentation: domain element `p` (the p-th element of
`d3.range(n)`) is mapped to `lo + p * (hi - lo) / n`. -/
def bandScale (lo hi : ℚ) (n : Nat) (p : Nat) : ℚ :=
  lo + (p : ℚ) * ((hi - lo) / (n : ℚ))

/-- Models `d3.scale.ordinal().domain(d3.range(n).reverse()).rangeBands([lo, hi])`:
element `i` sits at position `n - 1 - i` of the reversed domain, so it is
mapped to `lo + (n - 1 - i) * (hi - lo) / n`. -/
def bandScaleReversed (lo hi : ℚ) (n : Nat) (i : Nat) : ℚ :=
  lo + ((n - 1 - i : Nat) : ℚ) * ((hi - lo) / (n : ℚ))

/-- Models `rangeBand()` of either scale: the width of one band. -/
def bandWidth (lo hi : ℚ) (n : Nat) : ℚ :=
  (hi - lo) / (n : ℚ)

/-- The real-space x coordinate of column `j`'s centre:
`j_to_x(j) + j_to_x.rangeBand() / 2` in `createLandscape`. -/
def xCenter (xMin xMax : ℚ) (nCols : Nat) (j : Nat) : ℚ :=
  bandScale xMin xMax nCols j + bandWidth xMin xMax nCols / 2

/-- The real-space y coordinate of row `i`'s centre:
`i_to_y(i) + i_to_y.rangeBand() / 2` in `createLandscape` (the row scale's
domain is reversed). -/
def yCenter (yMin yMax : ℚ) (nRows : Nat) (i : Nat) : ℚ :=
  bandScaleReversed yMin yMax nRows i + bandWidth yMin yMax nRows / 2

/-- `createLandscape(func, nRows, nCols, xMin, xMax, yMin, yMax)` from
indexEasy.js: cell `(i, j)` carries the real-space centre
`x = j_to_x(j) + band/2`, `y = i_to_y(i) + band/2` (the row scale's domain
is reversed, so row 0 has the largest `y`), and value `z = func(x, y)`.
The JS loop builds `arr[i][j]` to exactly this cell for every
`i < nRows`, `j < nCols`. -/
def createLandscape (func : ℚ → ℚ → ℚ) (nRows nCols : Nat)
    (xMin xMax yMin yMax : ℚ) : Landscape :=
  let mkCell := fun (i j : Nat) =>
    let x := xCenter xMin xMax nCols j
    let y := yCenter yMin yMax nRows i
    let z := func x y
    ({ i := i, j := j, a := j, b := i, x := x, y := y, z := z,
       m := j, n := nRows - i - 1 } : Cell)
  { nRows := nRows, nCols := nCols,
    matrix := (List.range nRows).map fun i => (List.range nCols).map fun j => mkCell i j }

/-- Lookup `landscape.matrix[i][j]` (no wrapping). -/
def cellAt (L : Landscape) (i j : Nat) : Option Cell :=
  L.matrix[i]?.bind fun row => row[j]?

/-- `Environment.prototype.getSquare(i, j)` (also `context.getSquare` in
nematode.js): wrap both indices onto the torus, then index the matrix. -/
def getSquare (L : Landscape) (i j : Int) : Option Cell :=
  let ii := wrapIndex i L.nRows
  let jj := wrapIndex j L.nCols
  cellAt L ii.toNat jj.toNat

/-- `Environment.prototype.getMatrixCoordinates(i, j)` (the spec's
`normalizePosition`): returns the wrapped matrix coordinates. -/
def getMatrixCoordinates (L : Landscape) (i j : Int) : Int × Int :=
  (wrapIndex i L.nRows, wrapIndex j L.nCols)

/-- `context.getCoordinateFunc` from nematode.js (lines 384-389): the inner
function returns `{i: i % nRows, j: j % nCols}` using the bare truncating
`%`, with no adjustment for negative results. -/
def getCoordinateFunc (nRows nCols : Nat) : Int → Int → Int × Int :=
  fun i j => (Int.tmod i (nRows : Int), Int.tmod j (nCols : Int))

/-- `createGaussian(A, x0, y0, sigmax, sigmay)` (nematode.js / indexEasy.js).
`Math.exp` is an external transcendental primitive, modelled as an abstract
function argument `exp`. -/
def createGaussian (exp : ℚ → ℚ) (A x0 y0 sigmax sigmay : ℚ) : ℚ → ℚ → ℚ :=
  fun x y =>
    let xstuff := (x - x0) ^ 2 / (2 * sigmax ^ 2)
    let ystuff := (y - y0) ^ 2 / (2 * sigmay ^ 2)
    A * exp (-(xstuff + ystuff))

/-- The five movement labels `'U', 'L', 'S', 'R', 'D'` used by
`Nematode.prototype.getSquares`. -/
inductive Move
  | U
  | L
  | S
  | R
  | D
deriving DecidableEq, Repr

/-- The opposite of a direction (the spec's `opposite`; `Stay` is its own
opposite). -/
def Move.opposite : Move → Move
  | .U => .D
  | .L => .R
  | .S => .S
  | .R => .L
  | .D => .U

/-- One entry of the 3x3 local view built by `Nematode.prototype.getSquares`:
box coordinates `i, j` in the 3x3 frame, the movement label, the target cell
(resolved through the torus wrap) and whether the entry was marked
`ignorant`. -/
structure SquareView where
  i : Nat
  j : Nat
  movement : Move
  cell : Option Cell
  ignorant : Bool
deriving DecidableEq, Repr

/-- The `squares` array literal at the top of `Nematode.prototype.getSquares`:
boxes 1, 3, 4, 5, 7 of the 3x3 frame, in the order U, L, S, R, D. -/
def baseSquares (L : Landscape) (i j : Int) : List SquareView :=
  [ { i := 0, j := 1, movement := Move.U, cell := getSquare L (i - 1) j, ignorant := false },
    { i := 1, j := 0, movement := Move.L, cell := getSquare L i (j - 1), ignorant := false },
    { i := 1, j := 1, movement := Move.S, cell := getSquare L i j, ignorant := false },
    { i := 1, j := 2, movement := Move.R, cell := getSquare L i (j + 1), ignorant := false },
    { i := 2, j := 1, movement := Move.D, cell := getSquare L (i + 1) j, ignorant := false } ]

/-- `this.movements[this.positions.length - 1]`: the last recorded movement.
`none` models the JS `undefined` (both the entry stored for the starting
position and an out-of-range access). -/
def prevMove (positions : List (Int × Int)) (movements : List (Option Move)) :
    Option Move :=
  (movements[positions.length - 1]?).getD none

/-- The `ignorant` index list computed by `Nematode.prototype.getSquares`,
by variant and movement history.  An unmatched case (unknown variant, or a
previous move that matches no branch) leaves the initial empty list, exactly
as the JS if/else-if chain does. -/
def ignorantIndices (variant : Nat) (positions : List (Int × Int))
    (movements : List (Option Move)) : List Nat :=
  if variant = 0 then [0, 1, 3, 4]
  else if variant = 1 then
    if 1 < positions.length then
      match prevMove positions movements with
      | some Move.U => [0, 1, 3]
      | some Move.L => [0, 1, 4]
      | some Move.S => [0, 1, 3, 4]
      | some Move.R => [0, 3, 4]
      | some Move.D => [1, 3, 4]
      | none => []
    else [0, 1, 3, 4]
  else if variant = 2 then
    if 1 < positions.length then
      match prevMove positions movements with
      | some Move.U => [1, 3, 4]
      | some Move.L => [0, 3, 4]
      | some Move.S => [0, 1, 3, 4]
      | some Move.R => [0, 1, 4]
      | some Move.D => [0, 1, 3]
      | none => []
    else [0, 1, 3, 4]
  else if variant = 3 then []
  else []

/-- The marking loop at the end of `Nematode.prototype.getSquares`: for each
index in the ignorant list, replace `squares[idx].cell` by a shallow copy
carrying `ignorant = true` (here: set the view's `ignorant` flag). -/
def markIgnorant (squares : List SquareView) (ignorant : List Nat) :
    List SquareView :=
  ignorant.foldl
    (fun sq idx =>
      match sq[idx]? with
      | none => sq
      | some v => sq.set idx { v with ignorant := true })
    squares

/-- `Nematode.prototype.getSquares(i, j)`: build the 5-entry local view and
mark the ignorant entries according to the variant and movement history. -/
def getSquares (L : Landscape) (variant : Nat) (positions : List (Int × Int))
    (movements : List (Option Move)) (i j : Int) : List SquareView :=
  markIgnorant (baseSquares L i j) (ignorantIndices variant positions movements)

/-- The movement labels of the local-view entries that were not marked
ignorant: the cells whose value the nematode can see. -/
def visibleMoves (L : Landscape) (variant : Nat) (positions : List (Int × Int))
    (movements : List (Option Move)) (i j : Int) : List Move :=
  ((getSquares L variant positions movements i j).filter
    fun v => !v.ignorant).map SquareView.movement

/-- Movement histories actually produced by the system: the first entry is
the `undefined` pushed by `setPosition`, every later entry is a real
movement, and the two history lists stay the same length. -/
def WFHistory (positions : List (Int × Int)) (movements : List (Option Move)) :
    Prop :=
  ∃ rest : List (Option Move),
    movements = none :: rest ∧ (∀ x ∈ rest, x ≠ none) ∧
      positions.length = rest.length + 1

/-- Agent state: the fields of the `Nematode` object.  `positions` and
`movements` are the source's `this.positions` / `this.movements`; `energy`
and `alive` are the score accumulator and life flag read and written by the
callers (`bindMovesCountdown`, `gameOver`, `giveLife`). -/
structure Nema where
  positions : List (Int × Int)
  movements : List (Option Move)
  variant : Nat
  energy : ℚ
  alive : Bool
deriving DecidableEq, Repr

/-- Errors a move request can fail with (spec section 7). -/
inductive MoveError
  | DeadAgent
  | InvalidDirection
deriving DecidableEq, Repr

/-- The matrix-coordinate offset of each movement, as read off the
`squares` array of `getSquares` (`U` looks at `(i-1, j)`, etc.). -/
def targetOffset : Move → Int × Int
  | .U => (-1, 0)
  | .L => (0, -1)
  | .S => (0, 0)
  | .R => (0, 1)
  | .D => (1, 0)

/-- `Nematode.prototype.setPosition(i, j)` with explicit arguments: wrap the
given coordinates through `getMatrixCoordinates` and reset both history
lists.  (The argument-defaulting branch that draws a random start square is
UI randomness and is not modelled.) -/
def setPosition (L : Landscape) (nema : Nema) (i j : Int) : Nema :=
  let coords := getMatrixCoordinates L i j
  { nema with positions := [coords], movements := [none] }

/-- One move request.  The stay-disabling guard and the two history pushes
are the click handler of `Nematode.prototype.draw` in indexEasy.js (lines
866-901): clicking the centre box returns without effect, any other box
pushes `{i: p.cell.i, j: p.cell.j}` (the torus-wrapped target cell's matrix
coordinates) and the movement label.
Modelled from the spec: the `DeadAgent` guard (`fails with DeadAgent if
alive == false`) and the energy accumulation (`add the target cell's value
to energy`) belong to the richer nematode variant whose source file is not
included in the repository snapshot; only its callers (`bindMovesCountdown`,
`gameOver`) appear, so these two steps follow the spec's words. -/
def move (L : Landscape) (nema : Nema) (d : Move) : Except MoveError Nema :=
  if nema.alive = false then Except.error MoveError.DeadAgent
  else if d = Move.S then Except.error MoveError.InvalidDirection
  else
    let pos := nema.positions.getLastD (0, 0)
    let off := targetOffset d
    match getSquare L (pos.1 + off.1) (pos.2 + off.2) with
    | none => Except.error MoveError.InvalidDirection
    | some cell =>
        Except.ok
          { nema with
            positions := nema.positions ++ [((cell.i : Int), (cell.j : Int))],
            movements := nema.movements ++ [some d],
            energy := nema.energy + cell.z }

/-- Run a move request, keeping the old state when the request fails (a
failed request mutates nothing). -/
def applyMove (L : Landscape) (nema : Nema) (d : Move) : Nema :=
  match move L nema d with
  | Except.ok nema' => nema'
  | Except.error _ => nema

/-- Agent construction (`new Nematode(environment, ..., variant, i, j)`):
store the variant and the wrapped starting position.
Modelled from the spec: `energy` is the running sum of visited cell values,
so it starts as the value of the starting cell, and a fresh agent is alive;
both fields live in the richer nematode variant that is not under src/. -/
def createAgent (L : Landscape) (variant : Nat) (i j : Int) : Nema :=
  { positions := [getMatrixCoordinates L i j],
    movements := [none],
    variant := variant,
    energy := (getSquare L i j).elim 0 Cell.z,
    alive := true }

/-- `Nematode.prototype.setVariant(variant)`: store the new variant (the
redraw is presentation only). -/
def setVariant (nema : Nema) (variant : Nat) : Nema :=
  { nema with variant := variant }

/-- The number of moves made so far (`positions.length - 1`, the countdown
quantity used by `bindMovesCountdown` and the move counters). -/
def moveCount (nema : Nema) : Nat :=
  nema.positions.length - 1

/-- The energy bookkeeping invariant: the agent's energy equals the sum of
the landscape values at every visited position (the spec's running sum over
visited cells). -/
def energyIsSum (L : Landscape) (nema : Nema) : Prop :=
  nema.energy =
    (nema.positions.map fun p => (getSquare L p.1 p.2).elim 0 Cell.z).sum

/-- Combined session state: the landscape owned by the environment plus one
agent.  Used to state that operations never touch the landscape. -/
structure EnvState where
  landscape : Landscape
  nema : Nema
deriving DecidableEq, Repr

/-- A move request, at the session level. -/
def moveOp (s : EnvState) (d : Move) : EnvState :=
  { s with nema := applyMove s.landscape s.nema d }

/-- A variant change, at the session level. -/
def setVariantOp (s : EnvState) (v : Nat) : EnvState :=
  { s with nema := setVariant s.nema v }

/-- A teleport (the environment's cell-click handler calls
`nematode.setPosition(d.i, d.j)`), at the session level. -/
def setPositionOp (s : EnvState) (i j : Int) : EnvState :=
  { s with nema := setPosition s.landscape s.nema i j }

/-- A heap-resident cell object: the cell data plus the optional `ignorant`
flag that the marking loop attaches. -/
structure CellObj where
  cell : Cell
  ignorant : Bool
deriving DecidableEq, Repr

/-- An object store modelling JS object identity: addresses are indices into
`objs`, allocation appends.  The grid's own cell objects occupy the
addresses present before an operation runs. -/
structure Store where
  objs : List CellObj
deriving DecidableEq, Repr

/-- The marking loop of `Nematode.prototype.getSquares` at the object level:
`squares[idx].cell = $.extend({}, squares[idx].cell); squares[idx].cell.ignorant = true`.
`$.extend({}, o)` shallow-copies `o` into a brand-new object, so the loop
allocates a fresh object with the flag set and rebinds the view's cell
reference to it; the original object is never written. -/
def markIgnorantStore (s : Store) (squares : List Nat) (ignorant : List Nat) :
    Store × List Nat :=
  ignorant.foldl
    (fun acc idx =>
      match acc.2[idx]? with
      | none => acc
      | some addr =>
          match acc.1.objs[addr]? with
          | none => acc
          | some obj =>
              ({ objs := acc.1.objs ++ [{ obj with ignorant := true }] },
               acc.2.set idx acc.1.objs.length))
    (s, squares)

/-- A 20x20 landscape over `[-3,3]x[-3,3]` (the grid shape and region of
indexEasy.js), sampled from a simple exactly-representable field. -/
def land20 : Landscape :=
  createLandscape (fun x y => x + y) 20 20 (-3) 3 (-3) 3

/-- A 10x10 landscape over `[-3,3]x[-3,3]`, for the end-to-end scenario. -/
def land10 : Landscape :=
  createLandscape (fun x y => x + y) 10 10 (-3) 3 (-3) 3

/-- A small 3x3 landscape used as a concrete witness grid. -/
def land3 : Landscape :=
  createLandscape (fun _ _ => 0) 3 3 0 1 0 1

/-- An agent placed at matrix position (0, 0) on the 10x10 landscape. -/
def agentStart : Nema :=
  createAgent land10 0 0 0

/-- The agent after moving Right three times. -/
def agentAfter3R : Nema :=
  applyMove land10 (applyMove land10 (applyMove land10 agentStart Move.R) Move.R) Move.R

/-- A dead agent (the countdown handler has set `alive = false`). -/
def deadAgent : Nema :=
  { positions := [(0, 0)], movements := [none], variant := 0, energy := 5,
    alive := false }

/-- A single-entry (freshly placed) history. -/
def hist1Pos : List (Int × Int) := [(0, 0)]

/-- The movement list of a freshly placed agent. -/
def hist1Mov : List (Option Move) := [none]

/-- The position history after one Down move from (0, 0). -/
def hist2Pos : List (Int × Int) := [(0, 0), (1, 0)]

/-- The movement history after one Down move. -/
def hist2Mov : List (Option Move) := [none, some Move.D]

/-- A throwaway concrete cell for store fixtures. -/
def zeroCell : Cell :=
  { i := 0, j := 0, a := 0, b := 0, x := 0, y := 0, z := 0, m := 0, n := 0 }

/-- A concrete three-object store fixture. -/
def store3 : Store :=
  { objs :=
      [ { cell := zeroCell, ignorant := false },
        { cell := { zeroCell with i := 1 }, ignorant := false },
        { cell := { zeroCell with i := 2 }, ignorant := false } ] }

theorem tmod_neg_left (a b : Int) : Int.tmod (-a) b = -Int.tmod a b := by
  rw [Int.tmod_def, Int.tmod_def, Int.neg_tdiv]
  ring

theorem tmod_lower_bound (a : Int) {b : Int} (hb : 0 < b) : -b < Int.tmod a b := by
  rcases le_or_lt 0 a with ha | ha
  · have h1 : 0 ≤ Int.tmod a b := Int.tmod_nonneg b ha
    omega
  · have h2 : Int.tmod (-a) b < b := Int.tmod_lt_of_pos (-a) hb
    rw [tmod_neg_left] at h2
    omega

theorem wrapIndex_eq_emod (i : Int) (size : Nat) (hsize : 0 < size) :
    wrapIndex i size = i % (size : Int) := by
  have hs : (0 : Int) < (size : Int) := by exact_mod_cast hsize
  have hdecomp : Int.tmod i size + (size : Int) * i.tdiv size = i :=
    Int.tmod_add_tdiv i size
  have hmod : i % (size : Int) = Int.tmod i size % (size : Int) := by
    conv_lhs => rw [← hdecomp]
    rw [Int.add_mul_emod_self_left]
  have hub : Int.tmod i size < size := Int.tmod_lt_of_pos i hs
  have hlb : -(size : Int) < Int.tmod i size := tmod_lower_bound i hs
  unfold wrapIndex
  by_cases hneg : Int.tmod i (size : Int) < 0
  · simp only [hneg, if_true]
    rw [hmod]
    have h3 : Int.tmod i size % (size : Int) = (Int.tmod i size + (size : Int) * 1) % size :=
      (Int.add_mul_emod_self_left ..).symm
    rw [h3, Int.mul_one, Int.emod_eq_of_lt (by omega) (by omega)]
    omega
  · simp only [hneg, if_false]
    rw [hmod, Int.emod_eq_of_lt (by omega) (by omega)]

theorem wrapIndex_nonneg (i : Int) (size : Nat) (hsize : 0 < size) :
    0 ≤ wrapIndex i size := by
  rw [wrapIndex_eq_emod i size hsize]
  exact Int.emod_nonneg i (by exact_mod_cast hsize.ne')

theorem wrapIndex_lt (i : Int) (size : Nat) (hsize : 0 < size) :
    wrapIndex i size < (size : Int) := by
  rw [wrapIndex_eq_emod i size hsize]
  exact Int.emod_lt_of_pos i (by exact_mod_cast hsize)

theorem wrapIndex_period (i k : Int) (size : Nat) (hsize : 0 < size) :
    wrapIndex (i + k * (size : Int)) size = wrapIndex i size := by
  rw [wrapIndex_eq_emod _ size hsize, wrapIndex_eq_emod i size hsize,
    Int.add_mul_emod_self]

theorem cellAt_createLandscape (func : ℚ → ℚ → ℚ) (nRows nCols : Nat)
    (xMin xMax yMin yMax : ℚ) (i j : Nat) (hi : i < nRows) (hj : j < nCols) :
    cellAt (createLandscape func nRows nCols xMin xMax yMin yMax) i j =
      some
        { i := i, j := j, a := j, b := i,
          x := xCenter xMin xMax nCols j,
          y := yCenter yMin yMax nRows i,
          z := func (xCenter xMin xMax nCols j) (yCenter yMin yMax nRows i),
          m := j, n := nRows - i - 1 } := by
  simp [cellAt, createLandscape, List.getElem?_map, List.getElem?_range hi,
    List.getElem?_range hj]

theorem markIgnorantStore_cons_none (s : Store) (squares : List Nat)
    (idx : Nat) (rest : List Nat) (h1 : squares[idx]? = none) :
    markIgnorantStore s squares (idx :: rest) =
      markIgnorantStore s squares rest := by
  simp only [markIgnorantStore, List.foldl_cons, h1]

theorem markIgnorantStore_cons_dangling (s : Store) (squares : List Nat)
    (idx addr : Nat) (rest : List Nat) (h1 : squares[idx]? = some addr)
    (h2 : s.objs[addr]? = none) :
    markIgnorantStore s squares (idx :: rest) =
      markIgnorantStore s squares rest := by
  simp only [markIgnorantStore, List.foldl_cons, h1, h2]

theorem markIgnorantStore_cons_some (s : Store) (squares : List Nat)
    (idx addr : Nat) (obj : CellObj) (rest : List Nat)
    (h1 : squares[idx]? = some addr) (h2 : s.objs[addr]? = some obj) :
    markIgnorantStore s squares (idx :: rest) =
      markIgnorantStore { objs := s.objs ++ [{ obj with ignorant := true }] }
        (squares.set idx s.objs.length) rest := by
  simp only [markIgnorantStore, List.foldl_cons, h1, h2]

theorem markIgnorantStore_preserves (ignorant : List Nat) (s : Store)
    (squares : List Nat) (a : Nat) (ha : a < s.objs.length) :
    ((markIgnorantStore s squares ignorant).1.objs[a]?) = s.objs[a]? := by
  induction ignorant generalizing s squares with
  | nil => rfl
  | cons idx rest ih =>
      cases h1 : squares[idx]? with
      | none =>
          rw [markIgnorantStore_cons_none s squares idx rest h1]
          exact ih s squares ha
      | some addr =>
          cases h2 : s.objs[addr]? with
          | none =>
              rw [markIgnorantStore_cons_dangling s squares idx addr rest h1 h2]
              exact ih s squares ha
          | some obj =>
              rw [markIgnorantStore_cons_some s squares idx addr obj rest h1 h2]
              have hlen :
                  a < ({ objs := s.objs ++ [{ obj with ignorant := true }] } : Store).objs.length := by
                simp only [List.length_append, List.length_cons, List.length_nil]
                omega
              rw [ih { objs := s.objs ++ [{ obj with ignorant := true }] }
                (squares.set idx s.objs.length) hlen]
              exact List.getElem?_append_left ha

theorem wrapIndex_wrapIndex (i : Int) (size : Nat) :
    wrapIndex (wrapIndex i size) size = wrapIndex i size := by
  rcases Nat.eq_zero_or_pos size with h0 | hpos
  · subst h0
    unfold wrapIndex
    simp only [Nat.cast_zero, Int.tmod_zero]
    by_cases h : i < 0 <;> simp [h]
  · rw [wrapIndex_eq_emod i size hpos, wrapIndex_eq_emod _ size hpos,
      Int.emod_emod_of_dvd i dvd_rfl]

/-- C1: for every grid with positive dimensions, both the cell lookup
`getSquare` and the normalization `getMatrixCoordinates` are periodic with
period `(nRows, nCols)`: shifting the query by `k * nRows` rows and
`k * nCols` columns does not change the result (torus periodicity). -/
theorem torus_periodicity (L : Landscape) (i j k : Int)
    (hr : 0 < L.nRows) (hc : 0 < L.nCols) :
    getSquare L (i + k * (L.nRows : Int)) (j + k * (L.nCols : Int)) =
      getSquare L i j ∧
    getMatrixCoordinates L (i + k * (L.nRows : Int)) (j + k * (L.nCols : Int)) =
      getMatrixCoordinates L i j := by
  constructor
  · unfold getSquare
    rw [wrapIndex_period i k L.nRows hr, wrapIndex_period j k L.nCols hc]
  · unfold getMatrixCoordinates
    rw [wrapIndex_period i k L.nRows hr, wrapIndex_period j k L.nCols hc]

theorem torus_periodicity_witness :
    getSquare land20 (-1 + 2 * (land20.nRows : Int)) (5 + 2 * (land20.nCols : Int)) =
      getSquare land20 (-1) 5 ∧
    getMatrixCoordinates land20 (-1 + 2 * (land20.nRows : Int))
        (5 + 2 * (land20.nCols : Int)) =
      getMatrixCoordinates land20 (-1) 5 :=
  torus_periodicity land20 (-1) 5 2 (by decide) (by decide)

/-- C2: on every grid with positive dimensions, `getMatrixCoordinates` (the
spec's `normalizePosition`, and the same wrap that every cell lookup routes
through) lands in `[0, nRows) x [0, nCols)` even for negative input, and on
a 20x20 grid it maps `(-1, 0)` to `(19, 0)`.  However, the legacy
`getCoordinateFunc` helper in nematode.js applies the naive truncating `%`
with no negative fix-up: on the same input it yields the out-of-range pair
`(-1, 0)`, contradicting its own torus-wrapping purpose (the rewritten
helper in indexEasy.js and all actual lookups have the fix-up; this one is
never called). -/
theorem normalize_in_bounds (L : Landscape) (i j : Int)
    (hr : 0 < L.nRows) (hc : 0 < L.nCols) :
    (0 ≤ (getMatrixCoordinates L i j).1 ∧
      (getMatrixCoordinates L i j).1 < (L.nRows : Int) ∧
      0 ≤ (getMatrixCoordinates L i j).2 ∧
      (getMatrixCoordinates L i j).2 < (L.nCols : Int)) ∧
    getMatrixCoordinates land20 (-1) 0 = (19, 0) ∧
    getCoordinateFunc 20 20 (-1) 0 = (-1, 0) :=
  ⟨⟨wrapIndex_nonneg i L.nRows hr, wrapIndex_lt i L.nRows hr,
    wrapIndex_nonneg j L.nCols hc, wrapIndex_lt j L.nCols hc⟩,
   by decide, by decide⟩

theorem normalize_in_bounds_witness :
    (0 ≤ (getMatrixCoordinates land20 (-1) 0).1 ∧
      (getMatrixCoordinates land20 (-1) 0).1 < (land20.nRows : Int) ∧
      0 ≤ (getMatrixCoordinates land20 (-1) 0).2 ∧
      (getMatrixCoordinates land20 (-1) 0).2 < (land20.nCols : Int)) ∧
    getMatrixCoordinates land20 (-1) 0 = (19, 0) ∧
    getCoordinateFunc 20 20 (-1) 0 = (-1, 0) :=
  normalize_in_bounds land20 (-1) 0 (by decide) (by decide)

/-- C3: in a landscape built by `createLandscape`, cell `(i, j)` carries the
continuous coordinates of the cell centre with the row axis inverted —
`x = xMin + (j + 1/2)(xMax - xMin)/nCols` and
`y = yMin + (nRows - 1 - i + 1/2)(yMax - yMin)/nRows` — and its value is
`func` evaluated at that centre; the centres' y decreases as the row index
grows (row 0 has the maximum y, row nRows-1 the minimum) and their x grows
with the column index (column 0 has the minimum x). -/
theorem createLandscape_cell_centers (func : ℚ → ℚ → ℚ) (nRows nCols : Nat)
    (xMin xMax yMin yMax : ℚ) (i j : Nat) (hi : i < nRows) (hj : j < nCols)
    (hx : xMin < xMax) (hy : yMin < yMax) :
    (∃ c : Cell,
      cellAt (createLandscape func nRows nCols xMin xMax yMin yMax) i j = some c ∧
      c.x = xMin + ((j : ℚ) + 1 / 2) * (xMax - xMin) / (nCols : ℚ) ∧
      c.y = yMin + ((nRows : ℚ) - 1 - (i : ℚ) + 1 / 2) * (yMax - yMin) / (nRows : ℚ) ∧
      c.z = func c.x c.y) ∧
    (∀ r₁ r₂ : Nat, r₁ ≤ r₂ → r₂ < nRows →
      yCenter yMin yMax nRows r₂ ≤ yCenter yMin yMax nRows r₁) ∧
    (∀ q₁ q₂ : Nat, q₁ ≤ q₂ → q₂ < nCols →
      xCenter xMin xMax nCols q₁ ≤ xCenter xMin xMax nCols q₂) := by
  have hR : (0 : ℚ) < (nRows : ℚ) := by exact_mod_cast Nat.pos_of_ne_zero (by omega)
  have hC : (0 : ℚ) < (nCols : ℚ) := by exact_mod_cast Nat.pos_of_ne_zero (by omega)
  refine ⟨⟨_, cellAt_createLandscape func nRows nCols xMin xMax yMin yMax i j hi hj,
    ?_, ?_, rfl⟩, ?_, ?_⟩
  · show xCenter xMin xMax nCols j = _
    unfold xCenter bandScale bandWidth
    ring
  · show yCenter yMin yMax nRows i = _
    have hcast : ((nRows - 1 - i : Nat) : ℚ) = (nRows : ℚ) - 1 - (i : ℚ) := by
      have h1 : nRows - 1 - i = nRows - (i + 1) := by omega
      rw [h1, Nat.cast_sub hi]
      push_cast
      ring
    unfold yCenter bandScaleReversed bandWidth
    rw [hcast]
    ring
  · intro r₁ r₂ h12 h2R
    unfold yCenter bandScaleReversed bandWidth
    have hw : 0 < (yMax - yMin) / (nRows : ℚ) := by
      apply div_pos (by linarith) hR
    have hle : ((nRows - 1 - r₂ : Nat) : ℚ) ≤ ((nRows - 1 - r₁ : Nat) : ℚ) := by
      exact_mod_cast Nat.sub_le_sub_left h12 (nRows - 1)
    nlinarith
  · intro q₁ q₂ h12 h2C
    unfold xCenter bandScale bandWidth
    have hw : 0 < (xMax - xMin) / (nCols : ℚ) := by
      apply div_pos (by linarith) hC
    have hle : ((q₁ : ℚ)) ≤ ((q₂ : ℚ)) := by exact_mod_cast h12
    nlinarith

theorem createLandscape_cell_centers_witness :
    (∃ c : Cell,
      cellAt (createLandscape (fun x y => x + y) 20 20 (-3) 3 (-3) 3) 0 0 = some c ∧
      c.x = -3 + ((0 : ℚ) + 1 / 2) * (3 - -3) / ((20 : Nat) : ℚ) ∧
      c.y = -3 + (((20 : Nat) : ℚ) - 1 - ((0 : Nat) : ℚ) + 1 / 2) * (3 - -3) / ((20 : Nat) : ℚ) ∧
      c.z = (fun x y : ℚ => x + y) c.x c.y) ∧
    (∀ r₁ r₂ : Nat, r₁ ≤ r₂ → r₂ < 20 →
      yCenter (-3) 3 20 r₂ ≤ yCenter (-3) 3 20 r₁) ∧
    (∀ q₁ q₂ : Nat, q₁ ≤ q₂ → q₂ < 20 →
      xCenter (-3) 3 20 q₁ ≤ xCenter (-3) 3 20 q₂) :=
  createLandscape_cell_centers (fun x y => x + y) 20 20 (-3) 3 (-3) 3 0 0
    (by decide) (by decide) (by decide) (by decide)

theorem wf_prevMove (positions : List (Int × Int))
    (movements : List (Option Move)) (h : WFHistory positions movements) :
    (positions.length = 1 ∧ prevMove positions movements = none) ∨
    (1 < positions.length ∧ ∃ d : Move, prevMove positions movements = some d) := by
  obtain ⟨rest, hm, hall, hlen⟩ := h
  cases rest with
  | nil =>
      left
      have hlen1 : positions.length = 1 := by simpa using hlen
      refine ⟨hlen1, ?_⟩
      subst hm
      simp [prevMove, hlen1]
  | cons r rs =>
      right
      have hlen2 : 1 < positions.length := by
        simp only [List.length_cons] at hlen
        omega
      refine ⟨hlen2, ?_⟩
      subst hm
      have hidx : positions.length - 1 = rs.length + 1 := by
        simp only [List.length_cons] at hlen
        omega
      have hlt : rs.length < (r :: rs).length := by simp
      have hmem : (r :: rs)[rs.length] ∈ r :: rs := List.getElem_mem hlt
      obtain ⟨d, hd⟩ := Option.ne_none_iff_exists'.mp (hall _ hmem)
      refine ⟨d, ?_⟩
      rw [prevMove, hidx, List.getElem?_cons_succ, List.getElem?_eq_getElem hlt, hd]
      rfl

/-- C4: for every movement history the system can produce, variants 1 and 2
make only the Stay cell visible when the previous move is None (first move)
or Stay; after a real previous move `d`, variant 1 makes exactly
`{Stay, opposite d}` visible (the cell the agent came from) and variant 2
makes exactly `{Stay, d}` visible (the cell ahead). -/
theorem variant12_visibility (L : Landscape) (i j : Int)
    (positions : List (Int × Int)) (movements : List (Option Move))
    (hwf : WFHistory positions movements) :
    ((prevMove positions movements = none ∨
        prevMove positions movements = some Move.S) →
      ∀ v : Nat, v = 1 ∨ v = 2 →
        ∀ m : Move, m ∈ visibleMoves L v positions movements i j ↔ m = Move.S) ∧
    (∀ d : Move, d ≠ Move.S → prevMove positions movements = some d →
      (∀ m : Move, m ∈ visibleMoves L 1 positions movements i j ↔
        (m = Move.S ∨ m = d.opposite)) ∧
      (∀ m : Move, m ∈ visibleMoves L 2 positions movements i j ↔
        (m = Move.S ∨ m = d))) := by
  rcases wf_prevMove positions movements hwf with ⟨hlen, hprev⟩ | ⟨hlen, d₀, hprev⟩
  · have hnotlen : ¬ 1 < positions.length := by omega
    constructor
    · rintro - v hv m
      rcases hv with rfl | rfl <;>
        simp [visibleMoves, getSquares, ignorantIndices, hnotlen, markIgnorant,
          baseSquares, List.foldl]
    · intro d hd hprev2
      rw [hprev] at hprev2
      exact absurd hprev2 (by simp)
  · constructor
    · rintro (hnone | hS) v hv m
      · rw [hprev] at hnone
        exact absurd hnone (by simp)
      · rw [hprev] at hS
        have hd0 : d₀ = Move.S := by
          simpa using hS
        subst hd0
        rcases hv with rfl | rfl <;>
          simp [visibleMoves, getSquares, ignorantIndices, hlen, hprev,
            markIgnorant, baseSquares, List.foldl]
    · intro d hd hprev2
      rw [hprev] at hprev2
      obtain rfl : d₀ = d := by simpa using hprev2
      constructor <;> intro m <;> cases d₀ <;>
        simp [visibleMoves, getSquares, ignorantIndices, hlen, hprev,
          markIgnorant, baseSquares, List.foldl, Move.opposite] <;>
        cases m <;> simp_all

theorem variant12_visibility_witness :
    ((prevMove hist2Pos hist2Mov = none ∨
        prevMove hist2Pos hist2Mov = some Move.S) →
      ∀ v : Nat, v = 1 ∨ v = 2 →
        ∀ m : Move, m ∈ visibleMoves land3 v hist2Pos hist2Mov 1 0 ↔ m = Move.S) ∧
    (∀ d : Move, d ≠ Move.S → prevMove hist2Pos hist2Mov = some d →
      (∀ m : Move, m ∈ visibleMoves land3 1 hist2Pos hist2Mov 1 0 ↔
        (m = Move.S ∨ m = d.opposite)) ∧
      (∀ m : Move, m ∈ visibleMoves land3 2 hist2Pos hist2Mov 1 0 ↔
        (m = Move.S ∨ m = d))) :=
  variant12_visibility land3 1 0 hist2Pos hist2Mov
    ⟨[some Move.D], rfl, by simp, rfl⟩

theorem wrapIndex_of_lt (a : Int) (n : Nat) (h0 : 0 ≤ a) (hn : a < (n : Int)) :
    wrapIndex a n = a := by
  unfold wrapIndex
  rw [Int.tmod_eq_of_lt h0 hn, if_neg (by omega)]

theorem getSquare_createLandscape (func : ℚ → ℚ → ℚ) (nRows nCols : Nat)
    (xMin xMax yMin yMax : ℚ) (hr : 0 < nRows) (hc : 0 < nCols) (i j : Int) :
    getSquare (createLandscape func nRows nCols xMin xMax yMin yMax) i j =
      some
        { i := (wrapIndex i nRows).toNat, j := (wrapIndex j nCols).toNat,
          a := (wrapIndex j nCols).toNat, b := (wrapIndex i nRows).toNat,
          x := xCenter xMin xMax nCols (wrapIndex j nCols).toNat,
          y := yCenter yMin yMax nRows (wrapIndex i nRows).toNat,
          z := func (xCenter xMin xMax nCols (wrapIndex j nCols).toNat)
                 (yCenter yMin yMax nRows (wrapIndex i nRows).toNat),
          m := (wrapIndex j nCols).toNat,
          n := nRows - (wrapIndex i nRows).toNat - 1 } := by
  have hii : (wrapIndex i nRows).toNat < nRows := by
    have h1 := wrapIndex_nonneg i nRows hr
    have h2 := wrapIndex_lt i nRows hr
    omega
  have hjj : (wrapIndex j nCols).toNat < nCols := by
    have h1 := wrapIndex_nonneg j nCols hc
    have h2 := wrapIndex_lt j nCols hc
    omega
  exact cellAt_createLandscape func nRows nCols xMin xMax yMin yMax _ _ hii hjj

theorem getSquare_of_lt (func : ℚ → ℚ → ℚ) (nRows nCols : Nat)
    (xMin xMax yMin yMax : ℚ) (ii jj : Nat) (hii : ii < nRows) (hjj : jj < nCols) :
    getSquare (createLandscape func nRows nCols xMin xMax yMin yMax)
        (ii : Int) (jj : Int) =
      cellAt (createLandscape func nRows nCols xMin xMax yMin yMax) ii jj := by
  show cellAt _ (wrapIndex (ii : Int) nRows).toNat (wrapIndex (jj : Int) nCols).toNat = _
  rw [wrapIndex_of_lt _ _ (by omega) (by exact_mod_cast hii),
    wrapIndex_of_lt _ _ (by omega) (by exact_mod_cast hjj)]
  simp

theorem getSquare_roundtrip (func : ℚ → ℚ → ℚ) (nRows nCols : Nat)
    (xMin xMax yMin yMax : ℚ) (hr : 0 < nRows) (hc : 0 < nCols) (i j : Int)
    (c : Cell)
    (hsq : getSquare (createLandscape func nRows nCols xMin xMax yMin yMax) i j =
      some c) :
    getSquare (createLandscape func nRows nCols xMin xMax yMin yMax)
      (c.i : Int) (c.j : Int) = some c := by
  have hii : (wrapIndex i nRows).toNat < nRows := by
    have h1 := wrapIndex_nonneg i nRows hr
    have h2 := wrapIndex_lt i nRows hr
    omega
  have hjj : (wrapIndex j nCols).toNat < nCols := by
    have h1 := wrapIndex_nonneg j nCols hc
    have h2 := wrapIndex_lt j nCols hc
    omega
  rw [getSquare_createLandscape func nRows nCols xMin xMax yMin yMax hr hc i j]
    at hsq
  obtain rfl := Option.some.inj hsq
  rw [getSquare_of_lt func nRows nCols xMin xMax yMin yMax _ _ hii hjj]
  exact cellAt_createLandscape func nRows nCols xMin xMax yMin yMax _ _ hii hjj

theorem move_success (func : ℚ → ℚ → ℚ) (nRows nCols : Nat)
    (xMin xMax yMin yMax : ℚ) (hr : 0 < nRows) (hc : 0 < nCols)
    (nema : Nema) (d : Move) (halive : nema.alive = true) (hd : d ≠ Move.S) :
    ∃ c : Cell,
      getSquare (createLandscape func nRows nCols xMin xMax yMin yMax)
        ((nema.positions.getLastD (0, 0)).1 + (targetOffset d).1)
        ((nema.positions.getLastD (0, 0)).2 + (targetOffset d).2) = some c ∧
      c.i < nRows ∧ c.j < nCols ∧
      move (createLandscape func nRows nCols xMin xMax yMin yMax) nema d =
        Except.ok
          { nema with
            positions := nema.positions ++ [((c.i : Int), (c.j : Int))],
            movements := nema.movements ++ [some d],
            energy := nema.energy + c.z } := by
  have hii : (wrapIndex ((nema.positions.getLastD (0, 0)).1 + (targetOffset d).1)
      nRows).toNat < nRows := by
    have h1 := wrapIndex_nonneg ((nema.positions.getLastD (0, 0)).1 + (targetOffset d).1) nRows hr
    have h2 := wrapIndex_lt ((nema.positions.getLastD (0, 0)).1 + (targetOffset d).1) nRows hr
    omega
  have hjj : (wrapIndex ((nema.positions.getLastD (0, 0)).2 + (targetOffset d).2)
      nCols).toNat < nCols := by
    have h1 := wrapIndex_nonneg ((nema.positions.getLastD (0, 0)).2 + (targetOffset d).2) nCols hc
    have h2 := wrapIndex_lt ((nema.positions.getLastD (0, 0)).2 + (targetOffset d).2) nCols hc
    omega
  have hsq := getSquare_createLandscape func nRows nCols xMin xMax yMin yMax hr hc
    ((nema.positions.getLastD (0, 0)).1 + (targetOffset d).1)
    ((nema.positions.getLastD (0, 0)).2 + (targetOffset d).2)
  refine ⟨_, hsq, hii, hjj, ?_⟩
  simp only [move, halive, Bool.true_eq_false, if_false, hd, if_neg hd, hsq]

theorem createAgent_energyIsSum (L : Landscape) (variant : Nat) (i j : Int) :
    energyIsSum L (createAgent L variant i j) := by
  unfold energyIsSum createAgent getMatrixCoordinates
  simp only [List.map_cons, List.map_nil, List.sum_cons, List.sum_nil, add_zero]
  unfold getSquare
  rw [wrapIndex_wrapIndex, wrapIndex_wrapIndex]

theorem applyMove_energyIsSum (func : ℚ → ℚ → ℚ) (nRows nCols : Nat)
    (xMin xMax yMin yMax : ℚ) (hr : 0 < nRows) (hc : 0 < nCols)
    (nema : Nema) (d : Move)
    (hinv : energyIsSum (createLandscape func nRows nCols xMin xMax yMin yMax) nema) :
    energyIsSum (createLandscape func nRows nCols xMin xMax yMin yMax)
      (applyMove (createLandscape func nRows nCols xMin xMax yMin yMax) nema d) := by
  cases halive : nema.alive with
  | false =>
      unfold applyMove
      simp only [move, halive, if_true]
      exact hinv
  | true =>
      by_cases hd : d = Move.S
      · unfold applyMove
        simp only [move, halive, Bool.true_eq_false, if_false, hd, if_true]
        exact hinv
      · obtain ⟨c, hsq, hci, hcj, hmv⟩ :=
          move_success func nRows nCols xMin xMax yMin yMax hr hc nema d halive hd
        unfold applyMove
        rw [hmv]
        unfold energyIsSum at hinv ⊢
        simp only [List.map_append, List.sum_append, List.map_cons, List.map_nil,
          List.sum_cons, List.sum_nil, add_zero]
        rw [getSquare_roundtrip func nRows nCols xMin xMax yMin yMax hr hc _ _ c hsq]
        simp only [Option.elim_some]
        rw [hinv]

/-- C5: a successful move on a landscape with positive dimensions appends
exactly one torus-wrapped target position to the position history, appends
the direction to the movement history, and adds the target cell's value to
the energy; concretely, on a 10x10 grid an agent placed at (0, 0) and moved
Right three times ends with a position history of length 4, movement
history [None, Right, Right, Right], final column 3, and energy equal to
the sum of the values of the four visited cells. -/
theorem move_appends_scenario (func : ℚ → ℚ → ℚ) (nRows nCols : Nat)
    (xMin xMax yMin yMax : ℚ) (hr : 0 < nRows) (hc : 0 < nCols)
    (nema : Nema) (d : Move) (halive : nema.alive = true) (hd : d ≠ Move.S) :
    (∃ c : Cell,
      getSquare (createLandscape func nRows nCols xMin xMax yMin yMax)
        ((nema.positions.getLastD (0, 0)).1 + (targetOffset d).1)
        ((nema.positions.getLastD (0, 0)).2 + (targetOffset d).2) = some c ∧
      c.i < nRows ∧ c.j < nCols ∧
      move (createLandscape func nRows nCols xMin xMax yMin yMax) nema d =
        Except.ok
          { nema with
            positions := nema.positions ++ [((c.i : Int), (c.j : Int))],
            movements := nema.movements ++ [some d],
            energy := nema.energy + c.z }) ∧
    agentAfter3R.positions.length = 4 ∧
    agentAfter3R.movements = [none, some Move.R, some Move.R, some Move.R] ∧
    (agentAfter3R.positions.getLastD (0, 0)).2 = 3 ∧
    energyIsSum land10 agentAfter3R := by
  refine ⟨move_success func nRows nCols xMin xMax yMin yMax hr hc nema d halive hd,
    by decide, by decide, by decide, ?_⟩
  have h0 : energyIsSum land10 agentStart :=
    createAgent_energyIsSum land10 0 0 0
  have h1 := applyMove_energyIsSum (fun x y => x + y) 10 10 (-3) 3 (-3) 3
    (by decide) (by decide) agentStart Move.R h0
  have h2 := applyMove_energyIsSum (fun x y => x + y) 10 10 (-3) 3 (-3) 3
    (by decide) (by decide) _ Move.R h1
  exact applyMove_energyIsSum (fun x y => x + y) 10 10 (-3) 3 (-3) 3
    (by decide) (by decide) _ Move.R h2

theorem move_appends_scenario_witness :
    (∃ c : Cell,
      getSquare (createLandscape (fun x y => x + y) 10 10 (-3) 3 (-3) 3)
        ((agentStart.positions.getLastD (0, 0)).1 + (targetOffset Move.R).1)
        ((agentStart.positions.getLastD (0, 0)).2 + (targetOffset Move.R).2) = some c ∧
      c.i < 10 ∧ c.j < 10 ∧
      move (createLandscape (fun x y => x + y) 10 10 (-3) 3 (-3) 3) agentStart Move.R =
        Except.ok
          { agentStart with
            positions := agentStart.positions ++ [((c.i : Int), (c.j : Int))],
            movements := agentStart.movements ++ [some Move.R],
            energy := agentStart.energy + c.z }) ∧
    agentAfter3R.positions.length = 4 ∧
    agentAfter3R.movements = [none, some Move.R, some Move.R, some Move.R] ∧
    (agentAfter3R.positions.getLastD (0, 0)).2 = 3 ∧
    energyIsSum land10 agentAfter3R :=
  move_appends_scenario (fun x y => x + y) 10 10 (-3) 3 (-3) 3
    (by decide) (by decide) agentStart Move.R (by decide) (by decide)

/-- C6: a move request on a dead agent always fails with `DeadAgent` and
leaves the position history, movement history and energy unchanged
(regardless of the requested direction). -/
theorem dead_agent_move (L : Landscape) (nema : Nema) (d : Move)
    (hdead : nema.alive = false) :
    move L nema d = Except.error MoveError.DeadAgent ∧
    applyMove L nema d = nema ∧
    (applyMove L nema d).positions = nema.positions ∧
    (applyMove L nema d).movements = nema.movements ∧
    (applyMove L nema d).energy = nema.energy := by
  have h1 : move L nema d = Except.error MoveError.DeadAgent := by
    simp only [move, hdead, if_true]
  have h2 : applyMove L nema d = nema := by
    unfold applyMove
    rw [h1]
  exact ⟨h1, h2, by rw [h2], by rw [h2], by rw [h2]⟩

theorem dead_agent_move_witness :
    move land3 deadAgent Move.U = Except.error MoveError.DeadAgent ∧
    applyMove land3 deadAgent Move.U = deadAgent ∧
    (applyMove land3 deadAgent Move.U).positions = deadAgent.positions ∧
    (applyMove land3 deadAgent Move.U).movements = deadAgent.movements ∧
    (applyMove land3 deadAgent Move.U).energy = deadAgent.energy :=
  dead_agent_move land3 deadAgent Move.U (by decide)

/-- C7 counterexample: variant 4 lies outside the enumeration {0, 1, 2, 3},
yet the visibility computation raises no error at all: the ignorant list
silently stays empty and the result coincides with the all-visible view of
the omniscient variant 3 — it does default rather than fail. -/
theorem unknown_variant_silently_omniscient :
    ¬((4 : Nat) = 0 ∨ (4 : Nat) = 1 ∨ (4 : Nat) = 2 ∨ (4 : Nat) = 3) ∧
    ignorantIndices 4 hist1Pos hist1Mov = [] ∧
    getSquares land3 4 hist1Pos hist1Mov 0 0 = baseSquares land3 0 0 ∧
    getSquares land3 4 hist1Pos hist1Mov 0 0 =
      getSquares land3 3 hist1Pos hist1Mov 0 0 :=
  ⟨by decide, rfl, rfl, rfl⟩

/-- C7 amended: the visibility computation applied to any variant outside
{0, 1, 2, 3} does not fail: the if/else-if chain matches nothing, so the
ignorant list remains empty and all five local cells are visible (the same
output as the omniscient variant). -/
theorem unknown_variant_all_visible (variant : Nat)
    (h0 : variant ≠ 0) (h1 : variant ≠ 1) (h2 : variant ≠ 2) (h3 : variant ≠ 3)
    (L : Landscape) (positions : List (Int × Int))
    (movements : List (Option Move)) (i j : Int) :
    ignorantIndices variant positions movements = [] ∧
    getSquares L variant positions movements i j = baseSquares L i j ∧
    ∀ m : Move, m ∈ visibleMoves L variant positions movements i j := by
  have hig : ignorantIndices variant positions movements = [] := by
    simp [ignorantIndices, h0, h1, h2, h3]
  refine ⟨hig, ?_, ?_⟩
  · unfold getSquares
    rw [hig]
    rfl
  · intro m
    unfold visibleMoves getSquares
    rw [hig]
    cases m <;> simp [markIgnorant, baseSquares]

theorem unknown_variant_all_visible_witness :
    ignorantIndices 4 hist1Pos hist1Mov = [] ∧
    getSquares land3 4 hist1Pos hist1Mov 0 0 = baseSquares land3 0 0 ∧
    ∀ m : Move, m ∈ visibleMoves land3 4 hist1Pos hist1Mov 0 0 :=
  unknown_variant_all_visible 4 (by decide) (by decide) (by decide) (by decide)
    land3 hist1Pos hist1Mov 0 0

/-- C8: `createGaussian(amplitude, x0, y0, sigmaX, sigmaY)` returns the
function mapping `(x, y)` to
`amplitude * exp(-((x-x0)^2/(2 sigmaX^2) + (y-y0)^2/(2 sigmaY^2)))`; it is
a plain function of its arguments, with no side effects. -/
theorem createGaussian_formula (exp : ℚ → ℚ) (A x0 y0 sigmax sigmay : ℚ)
    (_hsx : 0 < sigmax) (_hsy : 0 < sigmay) (x y : ℚ) :
    createGaussian exp A x0 y0 sigmax sigmay x y =
      A * exp (-((x - x0) ^ 2 / (2 * sigmax ^ 2) +
        (y - y0) ^ 2 / (2 * sigmay ^ 2))) :=
  rfl

theorem createGaussian_formula_witness :
    createGaussian id 2 0 0 1 1 1 1 =
      2 * id (-((1 - 0) ^ 2 / (2 * 1 ^ 2) + (1 - 0) ^ 2 / (2 * 1 ^ 2))) :=
  createGaussian_formula id 2 0 0 1 1 (by decide) (by decide) 1 1

/-- C9: grid cells are never mutated after construction: the ignorant-marking
loop writes its flag only onto freshly allocated shallow copies, so every
object already present in the store before the loop — in particular every
grid cell — is bit-for-bit unchanged afterwards; and a move, a variant
change, or a teleport leaves the landscape component of the session state
untouched. -/
theorem grid_never_mutated :
    (∀ (s : Store) (squares ignorant : List Nat) (a : Nat),
      a < s.objs.length →
      ((markIgnorantStore s squares ignorant).1.objs[a]?) = s.objs[a]?) ∧
    (∀ (st : EnvState) (d : Move), (moveOp st d).landscape = st.landscape) ∧
    (∀ (st : EnvState) (v : Nat), (setVariantOp st v).landscape = st.landscape) ∧
    (∀ (st : EnvState) (i j : Int),
      (setPositionOp st i j).landscape = st.landscape) :=
  ⟨fun s squares ignorant a ha =>
      markIgnorantStore_preserves ignorant s squares a ha,
   fun _ _ => rfl, fun _ _ => rfl, fun _ _ _ => rfl⟩

theorem grid_never_mutated_witness :
    ((markIgnorantStore store3 [0, 1, 2, 1, 0] [0, 1, 3]).1.objs[1]?) =
      store3.objs[1]? :=
  grid_never_mutated.1 store3 [0, 1, 2, 1, 0] [0, 1, 3] 1 (by decide)

/-- C10: `setPosition(i, j)` discards the entire prior movement record in
any agent state: afterwards the position history is the single wrapped
entry `getMatrixCoordinates(i, j)`, the movement history is `[None]`, the
move count is 0 — and the environment's cell-click teleport handler is
exactly this reset, so a teleport does not count as a move. -/
theorem setPosition_resets (L : Landscape) (nema : Nema) (i j : Int) :
    (setPosition L nema i j).positions = [getMatrixCoordinates L i j] ∧
    (setPosition L nema i j).movements = [none] ∧
    moveCount (setPosition L nema i j) = 0 ∧
    (setPositionOp { landscape := L, nema := nema } i j).nema =
      setPosition L nema i j :=
  ⟨rfl, rfl, rfl, rfl⟩

end Nematode
